import Mathlib

/-!
Verification of the WebSocket relay in `pragma/client/websocket.py`
(`PragmaLightspeedClient`) and the endpoint loop in
`pragma/routers/endpoints/websocket.py`.

The relay is embedded as a deterministic state machine.  Each Python method
becomes a Lean function `RelayState → RelayState × List Event`; the `Event`
list records the externally visible actions the method performs (upstream
control-frame sends, `send_json` calls to downstream clients,
`message_queue.put`, socket closes, reconnect delays).  The asynchronous
parts of the source (the broadcast thread, the websocket callback thread)
are modelled as explicit operations in the `Op` alphabet so that a run of
the system is a list of operations applied in sequence.

Connection establishment is nondeterministic in the source (a socket either
becomes ready within the 5-second timeout or not); the model threads that
choice through as an explicit `ok : Bool` oracle argument.
-/

set_option maxHeartbeats 1000000

namespace Relay

/-- One entry of an upstream `oracle_prices` array: the code inspects the
`"pair"` key and forwards the whole entry; the remaining payload is
abstracted as a single integer. -/
structure PriceEntry where
  pair : String
  price : Int
deriving DecidableEq, Repr

/-- The JSON dictionaries flowing through the relay, restricted to the keys
the code actually inspects: `msg_type`, `status` (presence via
`"status" in data`), `pairs`, `oracle_prices` (presence via
`"oracle_prices" in data`), `timestamp`, and the `error`/`details` keys of
endpoint error replies.  The `pairs` array is modelled as the set of its
elements: the code only ever tests membership and containment on it
(`all(pair in ... for pair in data["pairs"])`), never order or
multiplicity. -/
structure Frame where
  msgType : Option String
  status : Option String
  pairs : Finset String
  oracle : Option (List PriceEntry)
  timestamp : Option Int
  error : Option String
  details : Option String
deriving DecidableEq

/-- A price-update message `{"oracle_prices": entries, "timestamp": ts}`. -/
def Frame.price (entries : List PriceEntry) (ts : Option Int) : Frame :=
  ⟨none, none, ∅, some entries, ts, none, none⟩

/-- A confirmation message `{"msg_type": mt, "pairs": ps, "status": st}`. -/
def Frame.conf (mt : String) (ps : Finset String) (st : String) : Frame :=
  ⟨some mt, some st, ps, none, none, none, none⟩

/-- An upstream acknowledgement frame carrying only a `msg_type`. -/
def Frame.ack (mt : String) : Frame :=
  ⟨some mt, none, ∅, none, none, none, none⟩

/-- An endpoint error reply `{"error": e, "details": d}`. -/
def Frame.err (e d : String) : Frame :=
  ⟨none, none, ∅, none, none, some e, some d⟩

/-- Externally visible actions of the relay. -/
inductive Event where
  /-- `self.ws.send(json.dumps({"msg_type": msgType, "pairs": list(self.subscribed_pairs)}))` -/
  | frame (msgType : String) (pairs : Finset String)
  /-- `await websocket.send_json(f)` on the downstream socket of client `cid` -/
  | toClient (cid : String) (f : Frame)
  /-- `self.message_queue.put(f)` -/
  | queuePut (f : Frame)
  /-- `self.ws.close()` -/
  | closeUpstream
  /-- closing the downstream socket of client `cid` -/
  | closeClient (cid : String)
  /-- `time.sleep(secs)` before a reconnection attempt -/
  | reconnectDelay (secs : Nat)
deriving DecidableEq

/-- `self.connected_clients`: an insertion-ordered dictionary from client id
to that client's subscription set (the `websocket` handle of each entry is
left implicit: in the model every registered client owns a live handle, and
closed handles are tracked by `closedWebsockets`, mirroring
`self._closed_websockets`). -/
abbrev Registry := List (String × Finset String)

/-- `client_id in self.connected_clients` / dictionary lookup. -/
def lookupClient (cid : String) : Registry → Option (Finset String)
  | [] => none
  | (k, v) :: rest => if k = cid then some v else lookupClient cid rest

/-- `client_id in self.connected_clients`. -/
def memClient (cid : String) (cs : Registry) : Bool :=
  (lookupClient cid cs).isSome

/-- Mutate the subscription set stored under key `cid`. -/
def updateClient (cid : String) (f : Finset String → Finset String) : Registry → Registry
  | [] => []
  | (k, v) :: rest =>
      if k = cid then (k, f v) :: updateClient cid f rest
      else (k, v) :: updateClient cid f rest

/-- `self.connected_clients.pop(client_id)` (the removal part). -/
def eraseClient (cid : String) : Registry → Registry
  | [] => []
  | (k, v) :: rest =>
      if k = cid then eraseClient cid rest else (k, v) :: eraseClient cid rest

/-- `self.connected_clients[client_id] = {"websocket": ..., "subscriptions": set()}`:
dictionary assignment overwrites an existing key in place, otherwise appends. -/
def insertClient (cid : String) (cs : Registry) : Registry :=
  if memClient cid cs then updateClient cid (fun _ => ∅) cs else cs ++ [(cid, ∅)]

/-- The union of all registered clients' subscription sets (the loop
`for client_info in self.connected_clients.values(): still_subscribed.update(...)`). -/
def unionSubs : Registry → Finset String
  | [] => ∅
  | (_, v) :: rest => v ∪ unionSubs rest

/-- The mutable state of `PragmaLightspeedClient`. -/
structure RelayState where
  /-- `self.connected_clients` -/
  clients : Registry
  /-- `self.subscribed_pairs` -/
  subscribedPairs : Finset String
  /-- `self._current_client` -/
  currentClient : Option String
  /-- `self._closed_websockets` -/
  closedWebsockets : Finset String
  /-- `self.ws is not None` -/
  wsHandle : Bool
  /-- `self.ws.sock and self.ws.sock.connected` -/
  wsConnected : Bool
  /-- `self._running` -/
  running : Bool
  /-- `self.stop_event.is_set()` -/
  stopEvent : Bool
  /-- `self._ws_lock.is_set()` (set means unlocked) -/
  wsLock : Bool
  /-- the contents of `self.message_queue` -/
  queue : List Frame
deriving DecidableEq

/-- The state built by `__init__`: empty registry, empty desired set, no
upstream socket, stop event clear, lock released, empty queue. -/
def initState : RelayState :=
  ⟨[], ∅, none, ∅, false, false, false, false, true, []⟩

/-- `extracted_from_subscribe` (lines 286-302): when the upstream socket is
live, serialize `{"msg_type": msg_type, "pairs": list(self.subscribed_pairs)}`
and send it; otherwise log and send nothing.  The payload is always the full
current `subscribed_pairs`, never the `pairs` argument (which only feeds the
log line).  The state is unchanged on the non-error path. -/
def extractedFromSubscribe (msgType : String) (s : RelayState) : List Event :=
  if s.wsHandle ∧ s.wsConnected then [Event.frame msgType s.subscribedPairs] else []

/-- The set-mutation prefix of `subscribe` (lines 239-241):
`self.connected_clients[client_id]["subscriptions"].update(pairs)` and
`self.subscribed_pairs.update(pairs)`. -/
def subscribeSets (pairs : Finset String) (cid : String) (s : RelayState) : RelayState :=
  { s with clients := updateClient cid (fun v => v ∪ pairs) s.clients,
           subscribedPairs := s.subscribedPairs ∪ pairs }

/-- The tail of `subscribe` (lines 249-260): if the upstream socket is live,
send the control frame via `extracted_from_subscribe` and put the synthetic
confirmation `{"msg_type": "subscribe", "pairs": pairs, "status": "subscribed"}`
on the message queue; otherwise log a failure. -/
def subscribePost (pairs : Finset String) (s : RelayState) : RelayState × List Event :=
  if s.wsHandle ∧ s.wsConnected then
    ({ s with queue := s.queue ++ [Frame.conf "subscribe" pairs "subscribed"] },
     extractedFromSubscribe "subscribe" s
       ++ [Event.queuePut (Frame.conf "subscribe" pairs "subscribed")])
  else (s, [])

/-- `on_open` (lines 171-176): on a freshly opened connection, replay
`self.subscribe(list(self.subscribed_pairs))` if the desired set is nonempty.
That call resolves `client_id` to `self._current_client`; its reconnect branch
is skipped because `on_open` only fires on a live connection, leaving the
set mutation plus `subscribePost`. -/
def onOpenModel (s : RelayState) : RelayState × List Event :=
  if s.subscribedPairs = ∅ then (s, [])
  else
    match s.currentClient with
    | none => (s, [])
    | some cid =>
        if memClient cid s.clients then
          subscribePost s.subscribedPairs (subscribeSets s.subscribedPairs cid s)
        else (s, [])

/-- `connect` (lines 304-347): guarded by `_ws_lock` (a no-op when an attempt
is already in flight); closes any old handle, creates a fresh `WebSocketApp`
and marks `_running`.  The oracle `ok` says whether the socket becomes ready
within the 5-second window: on success the `on_open` callback fires; on
failure the socket is closed and the handle cleared.  The lock is released on
exit in both branches. -/
def connectModel (ok : Bool) (s : RelayState) : RelayState × List Event :=
  if ¬s.wsLock then (s, [])
  else
    if ok then
      let r := onOpenModel { s with wsHandle := true, running := true, wsConnected := true }
      (r.1, (if s.wsHandle then [Event.closeUpstream] else []) ++ r.2)
    else
      ({ s with wsHandle := false, running := false, wsConnected := false },
       (if s.wsHandle then [Event.closeUpstream] else []) ++ [Event.closeUpstream])

/-- `subscribe` (lines 230-260): resolve a `None` client id to
`self._current_client`; a client id absent from the registry is a logged
no-op.  Otherwise union `pairs` into the client's set and the global set,
connect first if the upstream socket is not live, then send the control frame
and queue the synthetic confirmation. -/
def subscribeModel (pairs : Finset String) (cido : Option String) (ok : Bool)
    (s : RelayState) : RelayState × List Event :=
  match cido.orElse (fun _ => s.currentClient) with
  | none => (s, [])
  | some cid =>
      if memClient cid s.clients then
        let s1 := subscribeSets pairs cid s
        let r := if ¬(s1.wsHandle ∧ s1.running ∧ s1.wsConnected)
                 then connectModel ok s1 else (s1, [])
        let r2 := subscribePost pairs r.1
        (r2.1, r.2 ++ r2.2)
      else (s, [])

/-- `unsubscribe` (lines 262-284): resolve the client id; absent id is a
no-op.  Otherwise remove `pairs` from the client's set, recompute the union
of all clients' subscriptions, and for the pairs of `pairs` no longer in that
union remove them from `subscribed_pairs` and send an upstream unsubscribe
control frame (carrying the full remaining set).  Finally, if the desired set
or the registry is empty and a handle exists, close the upstream socket. -/
def unsubscribeModel (pairs : Finset String) (cido : Option String)
    (s : RelayState) : RelayState × List Event :=
  match cido.orElse (fun _ => s.currentClient) with
  | none => (s, [])
  | some cid =>
      if memClient cid s.clients then
        let clients1 := updateClient cid (fun v => v \ pairs) s.clients
        let orphans := pairs \ unionSubs clients1
        let r : RelayState × List Event :=
          if orphans ≠ ∅ then
            ({ s with clients := clients1, subscribedPairs := s.subscribedPairs \ orphans },
             extractedFromSubscribe "unsubscribe"
               { s with clients := clients1, subscribedPairs := s.subscribedPairs \ orphans })
          else ({ s with clients := clients1 }, [])
        if (r.1.subscribedPairs = ∅ ∨ r.1.clients = []) ∧ r.1.wsHandle then
          ({ r.1 with wsConnected := false }, r.2 ++ [Event.closeUpstream])
        else r
      else (s, [])

/-- `remove_client` (lines 185-228): an id absent from the registry is a
no-op.  Otherwise pop the entry, record the id in `_closed_websockets`, close
the client socket, and call `unsubscribe` for the popped subscriptions — a
call made *after* the pop, so it hits `unsubscribe`'s absent-id guard.  If
the registry is now empty and an upstream handle exists, close the upstream
socket, clear `_running`, set `stop_event` and clear `_closed_websockets`. -/
def removeClientModel (cid : String) (s : RelayState) : RelayState × List Event :=
  match lookupClient cid s.clients with
  | none => (s, [])
  | some subs =>
      let s1 := { s with clients := eraseClient cid s.clients,
                         closedWebsockets := insert cid s.closedWebsockets }
      let r := if subs ≠ ∅ then unsubscribeModel subs (some cid) s1 else (s1, [])
      if r.1.clients = [] ∧ r.1.wsHandle then
        ({ r.1 with wsConnected := false, running := false, stopEvent := true,
                    closedWebsockets := ∅ },
         Event.closeClient cid :: r.2 ++ [Event.closeUpstream])
      else (r.1, Event.closeClient cid :: r.2)

/-- `add_client` (lines 178-183): register the client with an empty
subscription set (dictionary assignment), record it as `_current_client`,
and if the relay is not running but the desired set is nonempty, start a
background `connect`. -/
def addClientModel (cid : String) (ok : Bool) (s : RelayState) : RelayState × List Event :=
  let s1 := { s with clients := insertClient cid s.clients, currentClient := some cid }
  if ¬s1.running ∧ s1.subscribedPairs ≠ ∅ then connectModel ok s1 else (s1, [])

/-- `on_close` (lines 160-169): mark not-running and clear the handle; only
if downstream clients remain, sleep 5 seconds and reconnect. -/
def onCloseModel (ok : Bool) (s : RelayState) : RelayState × List Event :=
  let s1 := { s with running := false, wsHandle := false, wsConnected := false }
  if s1.clients ≠ [] then
    let r := connectModel ok s1
    (r.1, Event.reconnectDelay 5 :: r.2)
  else (s1, [])

/-- `on_message` (lines 141-154): drop frames whose `msg_type` is
`"subscribe"` (upstream subscribe acknowledgements); queue everything else
for the broadcast thread.  (Invalid JSON is logged and dropped, which is the
identity on this state.) -/
def onMessageModel (f : Frame) (s : RelayState) : RelayState × List Event :=
  if f.msgType = some "subscribe" then (s, [])
  else ({ s with queue := s.queue ++ [f] }, [Event.queuePut f])

/-- `[price for price in data.get("oracle_prices", []) if price.get("pair") in client_pairs]` -/
def filterPrices (entries : List PriceEntry) (subs : Finset String) : List PriceEntry :=
  entries.filter (fun e => decide (e.pair ∈ subs))

/-- The confirmation loop of `_broadcast_message` (lines 91-103): send the
frame to every registered client whose socket is open and whose subscription
set contains all of the frame's pairs. -/
def deliverConf (f : Frame) (closed : Finset String) : Registry → List Event
  | [] => []
  | (cid, subs) :: rest =>
      if cid ∉ closed ∧ ∀ p ∈ f.pairs, p ∈ subs then
        Event.toClient cid f :: deliverConf f closed rest
      else deliverConf f closed rest

/-- The price/other loop of `_broadcast_message` (lines 106-129): for each
open client, if the frame has an `oracle_prices` key, filter the entries to
the client's pairs and send `{"oracle_prices": filtered, "timestamp": ts}`
unless the filtered list is empty while the original was not; frames without
`oracle_prices` are forwarded verbatim. -/
def deliverPrice (f : Frame) (closed : Finset String) : Registry → List Event
  | [] => []
  | (cid, subs) :: rest =>
      if cid ∉ closed then
        match f.oracle with
        | some entries =>
            if filterPrices entries subs ≠ [] ∨ entries = [] then
              Event.toClient cid (Frame.price (filterPrices entries subs) f.timestamp)
                :: deliverPrice f closed rest
            else deliverPrice f closed rest
        | none => Event.toClient cid f :: deliverPrice f closed rest
      else deliverPrice f closed rest

/-- `_broadcast_message` (lines 80-139): with no registered clients, close a
live upstream socket and stop; a `subscribe`-with-`status` frame (the
synthetic confirmation) goes through the confirmation loop; everything else
through the price loop. -/
def broadcastMessage (f : Frame) (s : RelayState) : RelayState × List Event :=
  if s.clients = [] then
    if s.wsHandle ∧ s.wsConnected then
      ({ s with wsConnected := false, running := false }, [Event.closeUpstream])
    else (s, [])
  else if f.msgType = some "subscribe" ∧ f.status.isSome then
    (s, deliverConf f s.closedWebsockets s.clients)
  else
    (s, deliverPrice f s.closedWebsockets s.clients)

/-- One iteration of the broadcast thread `_process_messages` (lines 46-78):
nothing happens once `stop_event` is set (the thread has exited its loop);
otherwise pop the next queued frame and broadcast it. -/
def processOneModel (s : RelayState) : RelayState × List Event :=
  if s.stopEvent then (s, [])
  else
    match s.queue with
    | [] => (s, [])
    | f :: rest => broadcastMessage f { s with queue := rest }

/-- The operations that drive the relay: the four registry methods invoked by
the endpoint, the connection callbacks fired by the websocket thread, and one
iteration of the broadcast thread. -/
inductive Op where
  | addClient (cid : String) (ok : Bool)
  | removeClient (cid : String)
  | subscribe (pairs : Finset String) (cido : Option String) (ok : Bool)
  | unsubscribe (pairs : Finset String) (cido : Option String)
  | connect (ok : Bool)
  | onOpen
  | onClose (ok : Bool)
  | onMessage (f : Frame)
  | processOne
deriving DecidableEq

/-- Apply one operation. -/
def step (s : RelayState) : Op → RelayState × List Event
  | .addClient cid ok => addClientModel cid ok s
  | .removeClient cid => removeClientModel cid s
  | .subscribe pairs cido ok => subscribeModel pairs cido ok s
  | .unsubscribe pairs cido => unsubscribeModel pairs cido s
  | .connect ok => connectModel ok s
  | .onOpen => onOpenModel s
  | .onClose ok => onCloseModel ok s
  | .onMessage f => onMessageModel f s
  | .processOne => processOneModel s

/-- Apply a sequence of operations, concatenating the emitted events. -/
def run (s : RelayState) : List Op → RelayState × List Event
  | [] => (s, [])
  | op :: rest =>
      let r := step s op
      let r2 := run r.1 rest
      (r2.1, r.2 ++ r2.2)

/-- The upstream control frames among a list of events. -/
def framesOf (evs : List Event) : List (String × Finset String) :=
  evs.filterMap (fun e => match e with
    | .frame t p => some (t, p)
    | _ => none)

/-- The frames delivered to downstream client `cid` among a list of events. -/
def deliveredTo (cid : String) (evs : List Event) : List Frame :=
  evs.filterMap (fun e => match e with
    | .toClient c f => if c = cid then some f else none
    | _ => none)

/-- All downstream deliveries among a list of events. -/
def clientSends (evs : List Event) : List (String × Frame) :=
  evs.filterMap (fun e => match e with
    | .toClient c f => some (c, f)
    | _ => none)

/-- One inbound text message on the endpoint socket, as seen by
`json.loads`: not JSON at all, valid JSON that is not an object (a list,
string or number — `message.get` then raises `AttributeError`), or a JSON
object with its `msg_type` and `pairs` keys. -/
inductive ClientMsg where
  | badJson
  | nonObject
  | obj (msgType : Option String) (pairs : Finset String)
deriving DecidableEq

/-- The error reply for an unrecognized `msg_type` (lines 68-73 of
`routers/endpoints/websocket.py`). -/
def errInvalidType : Frame :=
  Frame.err "Invalid message type" "msg_type must be either subscribe or unsubscribe"

/-- The error reply for undecodable JSON (line 75). -/
def errInvalidJson : Frame :=
  Frame.err "Invalid JSON" "Message must be valid JSON"

/-- One iteration of the endpoint receive loop (`websocket_endpoint`,
lines 49-95 of `routers/endpoints/websocket.py`) for the connected client
`cid`.  The returned `Bool` is whether the loop continues (the connection
stays open).  `subscribe`/`unsubscribe` dispatch to the relay and echo a
confirmation; an object with any other `msg_type` gets the
"Invalid message type" reply; undecodable JSON gets the "Invalid JSON"
reply; both leave the loop running.  A valid-JSON non-object raises
`AttributeError` at `message.get`, which is caught by the outer
`except Exception` handler: the loop exits and the `finally` block calls
`remove_client` and closes the socket. -/
def handleClientMessage (cid : String) (msg : ClientMsg) (ok : Bool)
    (s : RelayState) : RelayState × List Event × Bool :=
  match msg with
  | .badJson => (s, [Event.toClient cid errInvalidJson], true)
  | .obj mt pairs =>
      if mt = some "subscribe" then
        let r := subscribeModel pairs (some cid) ok s
        (r.1, r.2 ++ [Event.toClient cid (Frame.conf "subscribe" pairs "subscribed")], true)
      else if mt = some "unsubscribe" then
        let r := unsubscribeModel pairs (some cid) s
        (r.1, r.2 ++ [Event.toClient cid (Frame.conf "unsubscribe" pairs "unsubscribed")], true)
      else (s, [Event.toClient cid errInvalidType], true)
  | .nonObject =>
      let r := removeClientModel cid s
      (r.1, r.2 ++ [Event.closeClient cid], false)

/-! ### Registry lemmas -/

theorem mem_unionSubs {x : String} {cs : Registry} :
    x ∈ unionSubs cs ↔ ∃ p ∈ cs, x ∈ p.2 := by
  induction cs with
  | nil => simp [unionSubs]
  | cons hd tl ih =>
      obtain ⟨k, v⟩ := hd
      simp only [unionSubs, Finset.mem_union, ih, List.mem_cons]
      constructor
      · rintro (hx | ⟨p, hp, hx⟩)
        · exact ⟨(k, v), Or.inl rfl, hx⟩
        · exact ⟨p, Or.inr hp, hx⟩
      · rintro ⟨p, (rfl | hp), hx⟩
        · exact Or.inl hx
        · exact Or.inr ⟨p, hp, hx⟩

theorem mem_unionSubs_updateClient {x : String} {cid : String}
    {f : Finset String → Finset String} {cs : Registry} :
    x ∈ unionSubs (updateClient cid f cs) ↔
      ∃ p ∈ cs, x ∈ (if p.1 = cid then f p.2 else p.2) := by
  induction cs with
  | nil => simp [updateClient, unionSubs]
  | cons hd tl ih =>
      obtain ⟨k, v⟩ := hd
      by_cases hk : k = cid
      · simp only [updateClient, if_pos hk, unionSubs, Finset.mem_union, ih, List.mem_cons]
        constructor
        · rintro (hx | ⟨p, hp, hx⟩)
          · exact ⟨(k, v), Or.inl rfl, by simpa [hk] using hx⟩
          · exact ⟨p, Or.inr hp, hx⟩
        · rintro ⟨p, (rfl | hp), hx⟩
          · exact Or.inl (by simpa [hk] using hx)
          · exact Or.inr ⟨p, hp, hx⟩
      · simp only [updateClient, if_neg hk, unionSubs, Finset.mem_union, ih, List.mem_cons]
        constructor
        · rintro (hx | ⟨p, hp, hx⟩)
          · exact ⟨(k, v), Or.inl rfl, by simpa [hk] using hx⟩
          · exact ⟨p, Or.inr hp, hx⟩
        · rintro ⟨p, (rfl | hp), hx⟩
          · exact Or.inl (by simpa [hk] using hx)
          · exact Or.inr ⟨p, hp, hx⟩

theorem unionSubs_updateClient_union {cid : String} {t : Finset String} {cs : Registry} :
    unionSubs (updateClient cid (fun v => v ∪ t) cs) ⊆ unionSubs cs ∪ t := by
  intro x hx
  rw [mem_unionSubs_updateClient] at hx
  obtain ⟨p, hp, hx⟩ := hx
  rw [Finset.mem_union]
  split at hx
  · rcases Finset.mem_union.1 hx with h | h
    · exact Or.inl (mem_unionSubs.2 ⟨p, hp, h⟩)
    · exact Or.inr h
  · exact Or.inl (mem_unionSubs.2 ⟨p, hp, hx⟩)

theorem unionSubs_updateClient_sdiff {cid : String} {t : Finset String} {cs : Registry} :
    unionSubs (updateClient cid (fun v => v \ t) cs) ⊆ unionSubs cs := by
  intro x hx
  rw [mem_unionSubs_updateClient] at hx
  obtain ⟨p, hp, hx⟩ := hx
  split at hx
  · exact mem_unionSubs.2 ⟨p, hp, (Finset.mem_sdiff.1 hx).1⟩
  · exact mem_unionSubs.2 ⟨p, hp, hx⟩

theorem unionSubs_eraseClient_subset {cid : String} {cs : Registry} :
    unionSubs (eraseClient cid cs) ⊆ unionSubs cs := by
  induction cs with
  | nil => simp [eraseClient]
  | cons hd tl ih =>
      obtain ⟨k, v⟩ := hd
      by_cases hk : k = cid
      · simp only [eraseClient, if_pos hk, unionSubs]
        exact ih.trans Finset.subset_union_right
      · simp only [eraseClient, if_neg hk, unionSubs]
        exact Finset.union_subset_union (Finset.Subset.refl v) ih

theorem unionSubs_append {a b : Registry} :
    unionSubs (a ++ b) = unionSubs a ∪ unionSubs b := by
  induction a with
  | nil => simp [unionSubs]
  | cons hd tl ih =>
      obtain ⟨k, v⟩ := hd
      simp [unionSubs, ih, Finset.union_assoc]

theorem unionSubs_insertClient_subset {cid : String} {cs : Registry} :
    unionSubs (insertClient cid cs) ⊆ unionSubs cs := by
  unfold insertClient
  split
  · intro x hx
    rw [mem_unionSubs_updateClient] at hx
    obtain ⟨p, hp, hx⟩ := hx
    split at hx
    · simp at hx
    · exact mem_unionSubs.2 ⟨p, hp, hx⟩
  · rw [unionSubs_append]
    simp [unionSubs]

theorem lookupClient_updateClient_self {cid : String}
    {f : Finset String → Finset String} {cs : Registry} :
    lookupClient cid (updateClient cid f cs) = (lookupClient cid cs).map f := by
  induction cs with
  | nil => simp [updateClient, lookupClient]
  | cons hd tl ih =>
      obtain ⟨k, v⟩ := hd
      by_cases hk : k = cid
      · simp [updateClient, lookupClient, if_pos hk, ih]
      · simp [updateClient, lookupClient, if_neg hk, ih]

theorem lookupClient_eraseClient_self {cid : String} {cs : Registry} :
    lookupClient cid (eraseClient cid cs) = none := by
  induction cs with
  | nil => simp [eraseClient, lookupClient]
  | cons hd tl ih =>
      obtain ⟨k, v⟩ := hd
      by_cases hk : k = cid
      · simp [eraseClient, if_pos hk, ih]
      · simp [eraseClient, lookupClient, if_neg hk, ih]

theorem memClient_eraseClient_self {cid : String} {cs : Registry} :
    memClient cid (eraseClient cid cs) = false := by
  simp [memClient, lookupClient_eraseClient_self]

/-! ### The superset invariant (claim C1) -/

/-- Every registered client's subscribed pair is in `subscribed_pairs`. -/
def Inv (s : RelayState) : Prop :=
  unionSubs s.clients ⊆ s.subscribedPairs

theorem subscribePost_clients (P : Finset String) (s : RelayState) :
    (subscribePost P s).1.clients = s.clients := by
  unfold subscribePost; split <;> rfl

theorem subscribePost_subscribedPairs (P : Finset String) (s : RelayState) :
    (subscribePost P s).1.subscribedPairs = s.subscribedPairs := by
  unfold subscribePost; split <;> rfl

theorem inv_subscribeSets {P : Finset String} {cid : String} {s : RelayState}
    (h : Inv s) : Inv (subscribeSets P cid s) := by
  intro x hx
  have hx' := unionSubs_updateClient_union hx
  rcases Finset.mem_union.1 hx' with h1 | h1
  · exact Finset.mem_union.2 (Or.inl (h h1))
  · exact Finset.mem_union.2 (Or.inr h1)

theorem inv_subscribePost {P : Finset String} {s : RelayState}
    (h : Inv s) : Inv (subscribePost P s).1 := by
  unfold Inv
  rw [subscribePost_clients, subscribePost_subscribedPairs]
  exact h

theorem inv_onOpen {s : RelayState} (h : Inv s) : Inv (onOpenModel s).1 := by
  unfold onOpenModel
  split
  · exact h
  · split
    · exact h
    · split
      · exact inv_subscribePost (inv_subscribeSets h)
      · exact h

theorem inv_connect {ok : Bool} {s : RelayState} (h : Inv s) :
    Inv (connectModel ok s).1 := by
  simp only [connectModel]
  split
  · exact h
  · split
    · exact inv_onOpen h
    · exact h

theorem inv_subscribe {P : Finset String} {cido : Option String} {ok : Bool}
    {s : RelayState} (h : Inv s) : Inv (subscribeModel P cido ok s).1 := by
  simp only [subscribeModel]
  split
  · exact h
  · split
    · apply inv_subscribePost
      split
      · exact inv_connect (inv_subscribeSets h)
      · exact inv_subscribeSets h
    · exact h

theorem inv_unsub_core {P : Finset String} {cid : String} {s : RelayState}
    (h : Inv s) :
    Inv { s with clients := updateClient cid (fun v => v \ P) s.clients,
                 subscribedPairs := s.subscribedPairs \
                   (P \ unionSubs (updateClient cid (fun v => v \ P) s.clients)) } := by
  intro x hx
  have hx1 : x ∈ unionSubs (updateClient cid (fun v => v \ P) s.clients) := hx
  have hx2 : x ∈ s.subscribedPairs := h (unionSubs_updateClient_sdiff hx1)
  exact Finset.mem_sdiff.2 ⟨hx2, fun hc => (Finset.mem_sdiff.1 hc).2 hx1⟩

theorem inv_unsub_noorphan {P : Finset String} {cid : String} {s : RelayState}
    (h : Inv s) :
    Inv { s with clients := updateClient cid (fun v => v \ P) s.clients } := by
  intro x hx
  exact h (unionSubs_updateClient_sdiff hx)

theorem inv_unsubscribe {P : Finset String} {cido : Option String}
    {s : RelayState} (h : Inv s) : Inv (unsubscribeModel P cido s).1 := by
  simp only [unsubscribeModel]
  split
  · exact h
  · split
    · split
      · split
        · exact inv_unsub_core h
        · exact inv_unsub_core h
      · split
        · exact inv_unsub_noorphan h
        · exact inv_unsub_noorphan h
    · exact h

theorem inv_remove {cid : String} {s : RelayState} (h : Inv s) :
    Inv (removeClientModel cid s).1 := by
  simp only [removeClientModel]
  split
  · exact h
  · have h1 : Inv { s with clients := eraseClient cid s.clients,
                           closedWebsockets := insert cid s.closedWebsockets } := by
      intro x hx
      exact h (unionSubs_eraseClient_subset hx)
    split
    · split
      · exact inv_unsubscribe h1
      · exact inv_unsubscribe h1
    · split
      · exact h1
      · exact h1

theorem inv_add {cid : String} {ok : Bool} {s : RelayState} (h : Inv s) :
    Inv (addClientModel cid ok s).1 := by
  simp only [addClientModel]
  have h1 : Inv { s with clients := insertClient cid s.clients,
                         currentClient := some cid } := by
    intro x hx
    exact h (unionSubs_insertClient_subset hx)
  split
  · exact inv_connect h1
  · exact h1

theorem inv_onClose {ok : Bool} {s : RelayState} (h : Inv s) :
    Inv (onCloseModel ok s).1 := by
  simp only [onCloseModel]
  split
  · exact inv_connect h
  · exact h

theorem inv_broadcast {f : Frame} {s : RelayState} (h : Inv s) :
    Inv (broadcastMessage f s).1 := by
  simp only [broadcastMessage]
  split
  · split
    · exact h
    · exact h
  · split
    · exact h
    · exact h

theorem inv_processOne {s : RelayState} (h : Inv s) : Inv (processOneModel s).1 := by
  simp only [processOneModel]
  split
  · exact h
  · split
    · exact h
    · exact inv_broadcast h

theorem inv_onMessage {f : Frame} {s : RelayState} (h : Inv s) :
    Inv (onMessageModel f s).1 := by
  simp only [onMessageModel]
  split
  · exact h
  · exact h

theorem inv_step {s : RelayState} {op : Op} (h : Inv s) : Inv (step s op).1 := by
  cases op with
  | addClient cid ok => exact inv_add h
  | removeClient cid => exact inv_remove h
  | subscribe pairs cido ok => exact inv_subscribe h
  | unsubscribe pairs cido => exact inv_unsubscribe h
  | connect ok => exact inv_connect h
  | onOpen => exact inv_onOpen h
  | onClose ok => exact inv_onClose h
  | onMessage f => exact inv_onMessage h
  | processOne => exact inv_processOne h

theorem inv_run {s : RelayState} (h : Inv s) :
    ∀ ops : List Op, Inv (run s ops).1 := by
  intro ops
  induction ops generalizing s with
  | nil => exact h
  | cons op rest ih => exact ih (inv_step h)

theorem inv_init : Inv initState := by
  intro x hx
  simp [initState, unionSubs] at hx

/-! ### Claim C1 -/

/-- Claim C1, amended: after every sequence of relay operations, the
union of the registered clients' subscription sets is contained in
`subscribed_pairs` — every connected client's subscribed pair is in the
upstream desired set.  (The equality claimed by the spec fails; see the
counterexample.) -/
theorem c1_desired_superset_invariant (ops : List Op) :
    unionSubs (run initState ops).1.clients ⊆ (run initState ops).1.subscribedPairs :=
  inv_run inv_init ops

/-- Claim C1, counterexample to the claim as stated: one client subscribes
to `X` and is then removed; afterwards no connected client subscribes to
`X`, yet `X` remains in `subscribed_pairs` — the desired set is not the
union of the connected clients' subscriptions. -/
theorem c1_equality_counterexample :
    unionSubs (run initState [.addClient "c1" false, .subscribe {"X"} (some "c1") true,
        .removeClient "c1"]).1.clients = ∅ ∧
      (run initState [.addClient "c1" false, .subscribe {"X"} (some "c1") true,
        .removeClient "c1"]).1.subscribedPairs = {"X"} := by
  constructor <;> decide

/-! ### Claim C2 -/

/-- Claim C2, evaluation at the failing input: a single connected client
`c1` subscribed to `{X}` over a live upstream connection is removed.  The
session leaves the registry and the upstream connection closes, but the
emitted events contain no upstream unsubscribe frame, and the orphaned
pair `X` stays in `subscribed_pairs`: `remove_client` pops the entry
before calling `unsubscribe`, so the latter hits its absent-id guard. -/
theorem c2_remove_client_sends_no_unsubscribe :
    (removeClientModel "c1" (run initState
        [.addClient "c1" false, .subscribe {"X"} (some "c1") true]).1).2 =
      [Event.closeClient "c1", Event.closeUpstream] ∧
      (removeClientModel "c1" (run initState
        [.addClient "c1" false, .subscribe {"X"} (some "c1") true]).1).1.clients = [] ∧
      (removeClientModel "c1" (run initState
        [.addClient "c1" false, .subscribe {"X"} (some "c1") true]).1).1.subscribedPairs
        = {"X"} := by
  refine ⟨?_, ?_, ?_⟩ <;> decide

/-! ### Delivery lemmas (claims C3 and C9) -/

/-- What the price/other loop of `_broadcast_message` sends to one client. -/
def clientPriceDelivery (f : Frame) (closed : Finset String) (cid : String)
    (subs : Finset String) : List Frame :=
  if cid ∉ closed then
    match f.oracle with
    | some entries =>
        if filterPrices entries subs ≠ [] ∨ entries = [] then
          [Frame.price (filterPrices entries subs) f.timestamp]
        else []
    | none => [f]
  else []

/-- What the confirmation loop of `_broadcast_message` sends to one client. -/
def clientConfDelivery (f : Frame) (closed : Finset String) (cid : String)
    (subs : Finset String) : List Frame :=
  if cid ∉ closed ∧ ∀ p ∈ f.pairs, p ∈ subs then [f] else []

theorem deliveredTo_append {cid : String} {a b : List Event} :
    deliveredTo cid (a ++ b) = deliveredTo cid a ++ deliveredTo cid b := by
  simp [deliveredTo, List.filterMap_append]

theorem deliveredTo_cons_toClient_self {cid : String} {f : Frame} {l : List Event} :
    deliveredTo cid (Event.toClient cid f :: l) = f :: deliveredTo cid l := by
  simp [deliveredTo]

theorem deliveredTo_cons_toClient_ne {cid c : String} {f : Frame} {l : List Event}
    (h : c ≠ cid) : deliveredTo cid (Event.toClient c f :: l) = deliveredTo cid l := by
  simp [deliveredTo, h]

theorem deliveredTo_deliverPrice_of_not_mem {cid : String} {f : Frame}
    {closed : Finset String} {cs : Registry} (h : cid ∉ cs.map Prod.fst) :
    deliveredTo cid (deliverPrice f closed cs) = [] := by
  induction cs with
  | nil => rfl
  | cons hd tl ih =>
      obtain ⟨k, v⟩ := hd
      simp only [List.map_cons, List.mem_cons] at h
      push_neg at h
      obtain ⟨hk, htl⟩ := h
      have hrest := ih htl
      by_cases hc : k ∉ closed
      · cases ho : f.oracle with
        | none =>
            simp only [deliverPrice, ho, hc, not_false_eq_true, if_true]
            rw [deliveredTo_cons_toClient_ne (Ne.symm hk), hrest]
        | some entries =>
            by_cases hfe : filterPrices entries v ≠ [] ∨ entries = []
            · simp only [deliverPrice, ho, hc, not_false_eq_true, hfe, if_true]
              rw [deliveredTo_cons_toClient_ne (Ne.symm hk), hrest]
            · simp only [deliverPrice, ho, hc, not_false_eq_true, if_true, if_neg hfe]
              exact hrest
      · simp only [deliverPrice, if_neg hc]
        exact hrest

theorem deliveredTo_deliverPrice_of_mem {cid : String} {subs : Finset String}
    {f : Frame} {closed : Finset String} {cs : Registry}
    (hmem : (cid, subs) ∈ cs) (hnodup : (cs.map Prod.fst).Nodup) :
    deliveredTo cid (deliverPrice f closed cs) = clientPriceDelivery f closed cid subs := by
  induction cs with
  | nil => simp at hmem
  | cons hd tl ih =>
      obtain ⟨k, v⟩ := hd
      simp only [List.map_cons, List.nodup_cons] at hnodup
      obtain ⟨hk, htl⟩ := hnodup
      rcases List.mem_cons.1 hmem with heq | hmem'
      · injection heq with h1 h2
        subst h1
        subst h2
        have hrest : deliveredTo cid (deliverPrice f closed tl) = [] :=
          deliveredTo_deliverPrice_of_not_mem hk
        by_cases hc : cid ∉ closed
        · cases ho : f.oracle with
          | none =>
              simp only [deliverPrice, clientPriceDelivery, ho, hc, not_false_eq_true, if_true]
              rw [deliveredTo_cons_toClient_self, hrest]
          | some entries =>
              by_cases hfe : filterPrices entries subs ≠ [] ∨ entries = []
              · simp only [deliverPrice, clientPriceDelivery, ho, hc, not_false_eq_true, hfe, if_true]
                rw [deliveredTo_cons_toClient_self, hrest]
              · simp only [deliverPrice, clientPriceDelivery, ho, hc, not_false_eq_true, if_true, if_neg hfe]
                exact hrest
        · simp only [deliverPrice, clientPriceDelivery, if_neg hc]
          exact hrest
      · have hkcid : k ≠ cid := by
          intro hkc
          exact hk (hkc ▸ List.mem_map.2 ⟨(cid, subs), hmem', rfl⟩)
        have hrest := ih hmem' htl
        by_cases hc : k ∉ closed
        · cases ho : f.oracle with
          | none =>
              simp only [deliverPrice, ho, hc, not_false_eq_true, if_true]
              rw [deliveredTo_cons_toClient_ne hkcid, hrest]
          | some entries =>
              by_cases hfe : filterPrices entries v ≠ [] ∨ entries = []
              · simp only [deliverPrice, ho, hc, not_false_eq_true, hfe, if_true]
                rw [deliveredTo_cons_toClient_ne hkcid, hrest]
              · simp only [deliverPrice, ho, hc, not_false_eq_true, if_true, if_neg hfe]
                exact hrest
        · simp only [deliverPrice, if_neg hc]
          exact hrest

theorem deliveredTo_deliverConf_of_not_mem {cid : String} {f : Frame}
    {closed : Finset String} {cs : Registry} (h : cid ∉ cs.map Prod.fst) :
    deliveredTo cid (deliverConf f closed cs) = [] := by
  induction cs with
  | nil => rfl
  | cons hd tl ih =>
      obtain ⟨k, v⟩ := hd
      simp only [List.map_cons, List.mem_cons] at h
      push_neg at h
      obtain ⟨hk, htl⟩ := h
      have hrest := ih htl
      by_cases hc : k ∉ closed ∧ ∀ p ∈ f.pairs, p ∈ v
      · simp only [deliverConf]
        rw [if_pos hc, deliveredTo_cons_toClient_ne (Ne.symm hk), hrest]
      · simp only [deliverConf]
        rw [if_neg hc]
        exact hrest

theorem deliveredTo_deliverConf_of_mem {cid : String} {subs : Finset String}
    {f : Frame} {closed : Finset String} {cs : Registry}
    (hmem : (cid, subs) ∈ cs) (hnodup : (cs.map Prod.fst).Nodup) :
    deliveredTo cid (deliverConf f closed cs) = clientConfDelivery f closed cid subs := by
  induction cs with
  | nil => simp at hmem
  | cons hd tl ih =>
      obtain ⟨k, v⟩ := hd
      simp only [List.map_cons, List.nodup_cons] at hnodup
      obtain ⟨hk, htl⟩ := hnodup
      rcases List.mem_cons.1 hmem with heq | hmem'
      · injection heq with h1 h2
        subst h1
        subst h2
        have hrest : deliveredTo cid (deliverConf f closed tl) = [] :=
          deliveredTo_deliverConf_of_not_mem hk
        by_cases hc : cid ∉ closed ∧ ∀ p ∈ f.pairs, p ∈ subs
        · simp only [deliverConf, clientConfDelivery]
          rw [if_pos hc, if_pos hc, deliveredTo_cons_toClient_self, hrest]
        · simp only [deliverConf, clientConfDelivery]
          rw [if_neg hc, if_neg hc]
          exact hrest
      · have hkcid : k ≠ cid := by
          intro hkc
          exact hk (hkc ▸ List.mem_map.2 ⟨(cid, subs), hmem', rfl⟩)
        have hrest := ih hmem' htl
        by_cases hc : k ∉ closed ∧ ∀ p ∈ f.pairs, p ∈ v
        · simp only [deliverConf]
          rw [if_pos hc, deliveredTo_cons_toClient_ne hkcid, hrest]
        · simp only [deliverConf]
          rw [if_neg hc]
          exact hrest

/-! ### Claim C3 -/

/-- Claim C3: for an upstream frame carrying an `oracle_prices` array (and
not shaped like a synthetic subscription confirmation), a registered,
non-closed client receives exactly the entries whose pair lies in its
subscription set, together with the frame's timestamp; nothing at all if
the filtered list is empty while the original was not; and the empty
update `{"oracle_prices": [], "timestamp": ts}` as-is when the original
array was itself empty. -/
theorem c3_price_filtering (f : Frame) (entries : List PriceEntry) (s : RelayState)
    (cid : String) (subs : Finset String)
    (hne : s.clients ≠ [])
    (hconf : ¬(f.msgType = some "subscribe" ∧ f.status.isSome))
    (ho : f.oracle = some entries)
    (hmem : (cid, subs) ∈ s.clients)
    (hnodup : (s.clients.map Prod.fst).Nodup)
    (hopen : cid ∉ s.closedWebsockets) :
    deliveredTo cid (broadcastMessage f s).2 =
      if filterPrices entries subs = [] ∧ entries ≠ [] then []
      else [Frame.price (filterPrices entries subs) f.timestamp] := by
  simp only [broadcastMessage]
  rw [if_neg hne, if_neg hconf]
  rw [deliveredTo_deliverPrice_of_mem hmem hnodup]
  simp only [clientPriceDelivery, ho]
  rw [if_pos hopen]
  have hiff : (filterPrices entries subs ≠ [] ∨ entries = []) ↔
      ¬(filterPrices entries subs = [] ∧ entries ≠ []) := by
    constructor
    · rintro (h | h) ⟨h1, h2⟩
      exacts [h h1, h2 h]
    · intro h
      by_cases hA : filterPrices entries subs = []
      · right
        by_contra hB
        exact h ⟨hA, hB⟩
      · exact Or.inl hA
  by_cases hce : filterPrices entries subs = [] ∧ entries ≠ []
  · rw [if_neg (fun hcon => (hiff.1 hcon) hce), if_pos hce]
  · rw [if_pos (hiff.2 hce), if_neg hce]

/-- Claim C3, witness: a frame with entries for pairs A, B, C and a client
subscribed to `{B}` alone: the client receives exactly the B entry with
the frame's timestamp. -/
theorem c3_price_filtering_witness :
    deliveredTo "c1" (broadcastMessage
      (Frame.price [⟨"A", 1⟩, ⟨"B", 2⟩, ⟨"C", 3⟩] (some 7))
      ⟨[("c1", {"B"}), ("c2", {"A"})], {"A", "B"}, some "c2", ∅,
        true, true, true, false, true, []⟩).2 = [Frame.price [⟨"B", 2⟩] (some 7)] := by
  rw [c3_price_filtering _ [⟨"A", 1⟩, ⟨"B", 2⟩, ⟨"C", 3⟩] _ "c1" {"B"}
    (by decide) (by decide) rfl (by decide) (by decide) (by decide)]
  decide

/-! ### Claim C4 -/

theorem updateClient_of_not_mem {cid : String}
    {f : Finset String → Finset String} {cs : Registry}
    (h : cid ∉ cs.map Prod.fst) : updateClient cid f cs = cs := by
  induction cs with
  | nil => rfl
  | cons hd tl ih =>
      obtain ⟨k, v⟩ := hd
      simp only [List.map_cons, List.mem_cons] at h
      push_neg at h
      simp [updateClient, Ne.symm h.1, ih h.2]

theorem eraseClient_of_not_mem {cid : String} {cs : Registry}
    (h : cid ∉ cs.map Prod.fst) : eraseClient cid cs = cs := by
  induction cs with
  | nil => rfl
  | cons hd tl ih =>
      obtain ⟨k, v⟩ := hd
      simp only [List.map_cons, List.mem_cons] at h
      push_neg at h
      simp [eraseClient, Ne.symm h.1, ih h.2]

/-- With unique keys, the union after shrinking one client's set splits into
that client's shrunk set and the other clients' union. -/
theorem unionSubs_updateClient_sdiff_eq {cid : String} {P subs : Finset String}
    {cs : Registry} (hnodup : (cs.map Prod.fst).Nodup)
    (hlk : lookupClient cid cs = some subs) :
    unionSubs (updateClient cid (fun v => v \ P) cs)
      = (subs \ P) ∪ unionSubs (eraseClient cid cs) := by
  induction cs with
  | nil => simp [lookupClient] at hlk
  | cons hd tl ih =>
      obtain ⟨k, v⟩ := hd
      simp only [List.map_cons, List.nodup_cons] at hnodup
      obtain ⟨hk, htl⟩ := hnodup
      by_cases hkc : k = cid
      · subst hkc
        simp only [lookupClient, if_pos rfl] at hlk
        injection hlk with hlk
        subst hlk
        simp [updateClient, eraseClient, unionSubs,
          updateClient_of_not_mem hk, eraseClient_of_not_mem hk]
      · simp only [lookupClient, if_neg hkc] at hlk
        simp only [updateClient, if_neg hkc, eraseClient, unionSubs, ih htl hlk]
        rw [Finset.union_left_comm]

/-- The orphan set computed against the union *including* the unsubscribing
client's shrunk set equals the orphan set against the other clients alone:
the shrunk set contains no element of `P`. -/
theorem orphans_eq {P subs others : Finset String} :
    P \ ((subs \ P) ∪ others) = P \ others := by
  ext x
  simp only [Finset.mem_sdiff, Finset.mem_union]
  constructor
  · rintro ⟨hx, h⟩
    exact ⟨hx, fun ho => h (Or.inr ho)⟩
  · rintro ⟨hx, ho⟩
    refine ⟨hx, ?_⟩
    rintro (hs | h)
    · exact hs.2 hx
    · exact ho h

theorem framesOf_append {a b : List Event} :
    framesOf (a ++ b) = framesOf a ++ framesOf b := by
  simp [framesOf, List.filterMap_append]

/-- Claim C4: `unsubscribe(P, cid)` on a registered client removes `P` from
that client's subscription set, and sends exactly one upstream unsubscribe
control frame precisely when some pair of `P` is subscribed to by no other
client (the orphaned pairs `P \ ⋃ other clients' subscriptions`), removing
exactly those orphans from `subscribed_pairs`; when every pair of `P` is
still wanted by another client, no upstream unsubscribe is sent. -/
theorem c4_unsubscribe_orphans (s : RelayState) (P : Finset String) (cid : String)
    (subs : Finset String)
    (hnodup : (s.clients.map Prod.fst).Nodup)
    (hlk : lookupClient cid s.clients = some subs)
    (hws : s.wsHandle = true) (hconn : s.wsConnected = true) :
    lookupClient cid (unsubscribeModel P (some cid) s).1.clients = some (subs \ P) ∧
      (unsubscribeModel P (some cid) s).1.subscribedPairs
        = s.subscribedPairs \ (P \ unionSubs (eraseClient cid s.clients)) ∧
      framesOf (unsubscribeModel P (some cid) s).2 =
        (if P \ unionSubs (eraseClient cid s.clients) = ∅ then []
         else [("unsubscribe",
                s.subscribedPairs \ (P \ unionSubs (eraseClient cid s.clients)))]) := by
  have hm : memClient cid s.clients = true := by simp [memClient, hlk]
  have hu := @unionSubs_updateClient_sdiff_eq cid P subs s.clients hnodup hlk
  have hlk2 : lookupClient cid (updateClient cid (fun v => v \ P) s.clients)
      = some (subs \ P) := by
    rw [lookupClient_updateClient_self, hlk]
    rfl
  simp only [unsubscribeModel, Option.orElse, hm, if_true, hu, orphans_eq]
  by_cases hO : P \ unionSubs (eraseClient cid s.clients) = ∅
  · simp only [hO, ne_eq, not_true_eq_false, if_false, Finset.sdiff_empty]
    split
    · exact ⟨hlk2, rfl, rfl⟩
    · exact ⟨hlk2, rfl, rfl⟩
  · simp only [ne_eq, hO, not_false_eq_true, if_true,
      extractedFromSubscribe, hws, hconn, and_self]
    split
    · exact ⟨hlk2, rfl, by simp [framesOf]⟩
    · exact ⟨hlk2, rfl, by simp [framesOf]⟩

/-- Claim C4, witness: clients `c1` and `c2` both subscribed to `X`.
`c1`'s unsubscribe sends no upstream unsubscribe (`c2` still wants `X`);
`c2`'s subsequent unsubscribe sends exactly one upstream unsubscribe frame
(whose payload, the full remaining desired set, is now empty). -/
theorem c4_unsubscribe_orphans_witness :
    framesOf (unsubscribeModel {"X"} (some "c1")
      ⟨[("c1", {"X"}), ("c2", {"X"})], {"X"}, some "c2", ∅,
        true, true, true, false, true, []⟩).2 = [] ∧
      framesOf (unsubscribeModel {"X"} (some "c2")
        (unsubscribeModel {"X"} (some "c1")
          ⟨[("c1", {"X"}), ("c2", {"X"})], {"X"}, some "c2", ∅,
            true, true, true, false, true, []⟩).1).2
        = [("unsubscribe", (∅ : Finset String))] := by
  constructor
  · exact (c4_unsubscribe_orphans
      ⟨[("c1", {"X"}), ("c2", {"X"})], {"X"}, some "c2", ∅,
        true, true, true, false, true, []⟩ {"X"} "c1" {"X"}
      (by decide) (by decide) rfl rfl).2.2.trans (by decide)
  · exact (c4_unsubscribe_orphans
      (unsubscribeModel {"X"} (some "c1")
        ⟨[("c1", {"X"}), ("c2", {"X"})], {"X"}, some "c2", ∅,
          true, true, true, false, true, []⟩).1 {"X"} "c2" {"X"}
      (by decide) (by decide) (by decide) (by decide)).2.2.trans (by decide)

/-! ### Claim C5 -/

/-- Every upstream control frame in the event list carries the
`subscribed_pairs` of the resulting state. -/
def framesPayload (r : RelayState × List Event) : Prop :=
  ∀ tp ∈ framesOf r.2, tp.2 = r.1.subscribedPairs

theorem framesOf_cons_toClient {c : String} {f : Frame} {l : List Event} :
    framesOf (Event.toClient c f :: l) = framesOf l := by simp [framesOf]

theorem framesOf_cons_queuePut {f : Frame} {l : List Event} :
    framesOf (Event.queuePut f :: l) = framesOf l := by simp [framesOf]

theorem framesOf_cons_closeUpstream {l : List Event} :
    framesOf (Event.closeUpstream :: l) = framesOf l := by simp [framesOf]

theorem framesOf_cons_closeClient {c : String} {l : List Event} :
    framesOf (Event.closeClient c :: l) = framesOf l := by simp [framesOf]

theorem framesOf_cons_reconnectDelay {n : Nat} {l : List Event} :
    framesOf (Event.reconnectDelay n :: l) = framesOf l := by simp [framesOf]

theorem framesOf_deliverPrice {f : Frame} {closed : Finset String} {cs : Registry} :
    framesOf (deliverPrice f closed cs) = [] := by
  induction cs with
  | nil => rfl
  | cons hd tl ih =>
      obtain ⟨k, v⟩ := hd
      unfold deliverPrice
      repeat' split
      all_goals first
        | (rw [framesOf_cons_toClient]; exact ih)
        | exact ih

theorem framesOf_deliverConf {f : Frame} {closed : Finset String} {cs : Registry} :
    framesOf (deliverConf f closed cs) = [] := by
  induction cs with
  | nil => rfl
  | cons hd tl ih =>
      obtain ⟨k, v⟩ := hd
      unfold deliverConf
      split
      · rw [framesOf_cons_toClient]; exact ih
      · exact ih

theorem payload_extracted {t : String} {s : RelayState} :
    ∀ tp ∈ framesOf (extractedFromSubscribe t s), tp.2 = s.subscribedPairs := by
  unfold extractedFromSubscribe
  split
  · simp [framesOf]
  · simp [framesOf]

theorem payload_extracted_pair {t : String} {s : RelayState} :
    framesPayload (s, extractedFromSubscribe t s) :=
  fun tp htp => payload_extracted tp htp

theorem payload_subscribePost {P : Finset String} {s : RelayState} :
    framesPayload (subscribePost P s) := by
  unfold framesPayload subscribePost
  split
  · intro tp htp
    rw [framesOf_append] at htp
    rw [List.mem_append] at htp
    rcases htp with h | h
    · exact payload_extracted tp h
    · simp [framesOf] at h
  · intro tp htp
    simp [framesOf] at htp

theorem payload_onOpen {s : RelayState} : framesPayload (onOpenModel s) := by
  unfold onOpenModel
  split
  · intro tp htp; simp [framesOf] at htp
  · split
    · intro tp htp; simp [framesOf] at htp
    · split
      · exact payload_subscribePost
      · intro tp htp; simp [framesOf] at htp

theorem payload_connect {ok : Bool} {s : RelayState} :
    framesPayload (connectModel ok s) := by
  unfold connectModel
  split
  · intro tp htp; simp [framesOf] at htp
  · split
    · intro tp htp
      rw [framesOf_append, List.mem_append] at htp
      rcases htp with h | h
      · exfalso
        revert h
        split <;> simp [framesOf]
      · exact payload_onOpen tp h
    · intro tp htp
      revert htp
      split <;> simp [framesOf]

theorem payload_subscribe {P : Finset String} {cido : Option String} {ok : Bool}
    {s : RelayState} : framesPayload (subscribeModel P cido ok s) := by
  unfold subscribeModel
  split
  · intro tp htp; simp [framesOf] at htp
  · split
    · intro tp htp
      rw [framesOf_append, List.mem_append] at htp
      rcases htp with h | h
      · rw [subscribePost_subscribedPairs]
        revert h
        split
        · exact fun h => payload_connect tp h
        · simp [framesOf]
      · exact payload_subscribePost tp h
    · intro tp htp; simp [framesOf] at htp

theorem payload_unsubscribe {P : Finset String} {cido : Option String}
    {s : RelayState} : framesPayload (unsubscribeModel P cido s) := by
  unfold framesPayload
  simp only [unsubscribeModel]
  split
  · intro tp htp; simp [framesOf] at htp
  · split
    · split
      · split
        · intro tp htp
          rw [framesOf_append, List.mem_append] at htp
          rcases htp with h | h
          · have h2 := payload_extracted tp h
            exact h2
          · simp [framesOf] at h
        · intro tp htp
          have h2 := payload_extracted tp htp
          exact h2
      · split
        · intro tp htp
          simp [framesOf] at htp
        · intro tp htp
          simp [framesOf] at htp
    · intro tp htp; simp [framesOf] at htp

theorem payload_remove {cid : String} {s : RelayState} :
    framesPayload (removeClientModel cid s) := by
  unfold framesPayload
  simp only [removeClientModel]
  split
  · intro tp htp; simp [framesOf] at htp
  · split
    · split
      · intro tp htp
        simp only [framesOf_cons_closeClient, framesOf_append, List.mem_append] at htp
        rcases htp with h | h
        · have h2 := payload_unsubscribe tp h
          exact h2
        · simp [framesOf] at h
      · intro tp htp
        simp only [framesOf_cons_closeClient] at htp
        have h2 := payload_unsubscribe tp htp
        exact h2
    · split
      · intro tp htp
        simp [framesOf] at htp
      · intro tp htp
        simp [framesOf] at htp

theorem payload_add {cid : String} {ok : Bool} {s : RelayState} :
    framesPayload (addClientModel cid ok s) := by
  simp only [addClientModel]
  split
  · exact payload_connect
  · intro tp htp; simp [framesOf] at htp

theorem payload_onClose {ok : Bool} {s : RelayState} :
    framesPayload (onCloseModel ok s) := by
  simp only [onCloseModel]
  split
  · intro tp htp
    simp only [framesOf_cons_reconnectDelay] at htp
    have h2 := payload_connect tp htp
    exact h2
  · intro tp htp; simp [framesOf] at htp

theorem payload_onMessage {f : Frame} {s : RelayState} :
    framesPayload (onMessageModel f s) := by
  unfold onMessageModel
  split <;> (intro tp htp; simp [framesOf] at htp)

theorem payload_broadcast {f : Frame} {s : RelayState} :
    framesPayload (broadcastMessage f s) := by
  unfold broadcastMessage
  split
  · split <;> (intro tp htp; simp [framesOf] at htp)
  · split
    · intro tp htp
      rw [framesOf_deliverConf] at htp
      simp at htp
    · intro tp htp
      rw [framesOf_deliverPrice] at htp
      simp at htp

theorem payload_processOne {s : RelayState} :
    framesPayload (processOneModel s) := by
  unfold processOneModel
  split
  · intro tp htp; simp [framesOf] at htp
  · split
    · intro tp htp; simp [framesOf] at htp
    · exact payload_broadcast

/-- Claim C5: every subscribe or unsubscribe control frame any operation
sends to the upstream feed carries as its `pairs` payload the full
`subscribed_pairs` of the state at send time (equal to the operation's
post-state desired set, which no operation changes after sending), never
only the delta that triggered the send. -/
theorem c5_control_frames_carry_full_set (s : RelayState) (op : Op)
    (tp : String × Finset String) (htp : tp ∈ framesOf (step s op).2) :
    tp.2 = (step s op).1.subscribedPairs := by
  cases op with
  | addClient cid ok => exact payload_add tp htp
  | removeClient cid => exact payload_remove tp htp
  | subscribe pairs cido ok => exact payload_subscribe tp htp
  | unsubscribe pairs cido => exact payload_unsubscribe tp htp
  | connect ok => exact payload_connect tp htp
  | onOpen => exact payload_onOpen tp htp
  | onClose ok => exact payload_onClose tp htp
  | onMessage f => exact payload_onMessage tp htp
  | processOne => exact payload_processOne tp htp

/-- Claim C5, witness: a fresh client subscribing to `{X}` makes the relay
send a subscribe control frame, and its payload is the full desired set
`{X}` of the post-state. -/
theorem c5_control_frames_carry_full_set_witness :
    (("subscribe", ({"X"} : Finset String)) : String × Finset String).2 =
      (step ⟨[("c1", ∅)], ∅, some "c1", ∅, false, false, false, false, true, []⟩
        (Op.subscribe {"X"} (some "c1") true)).1.subscribedPairs :=
  c5_control_frames_carry_full_set
    ⟨[("c1", ∅)], ∅, some "c1", ∅, false, false, false, false, true, []⟩
    (Op.subscribe {"X"} (some "c1") true)
    ("subscribe", {"X"}) (by decide)

/-! ### Claim C6 -/

theorem unsubscribeModel_of_lookup_none {P : Finset String} {cid : String}
    {s : RelayState} (h : lookupClient cid s.clients = none) :
    unsubscribeModel P (some cid) s = (s, []) := by
  simp [unsubscribeModel, Option.orElse, memClient, h]

theorem subscribeModel_of_lookup_none {P : Finset String} {cid : String} {ok : Bool}
    {s : RelayState} (h : lookupClient cid s.clients = none) :
    subscribeModel P (some cid) ok s = (s, []) := by
  simp [subscribeModel, Option.orElse, memClient, h]

theorem removeClientModel_of_lookup_none {cid : String} {s : RelayState}
    (h : lookupClient cid s.clients = none) :
    removeClientModel cid s = (s, []) := by
  simp [removeClientModel, h]

theorem clients_after_remove {cid : String} {s : RelayState} {subs : Finset String}
    (hlk : lookupClient cid s.clients = some subs) :
    (removeClientModel cid s).1.clients = eraseClient cid s.clients := by
  have hnm : lookupClient cid
      ({ s with clients := eraseClient cid s.clients,
                closedWebsockets := insert cid s.closedWebsockets } : RelayState).clients
      = none := lookupClient_eraseClient_self
  simp only [removeClientModel, hlk]
  rw [unsubscribeModel_of_lookup_none hnm, ite_self]
  split <;> rfl

/-- Claim C6: removing the same session twice yields exactly the state of a
single removal, with no further events (the second call hits the absent-id
guard); and `subscribe`/`unsubscribe` invoked with a session id not in the
registry leave the entire relay state unchanged and emit nothing. -/
theorem c6_idempotence (s : RelayState) (cid : String) (P : Finset String) (ok : Bool) :
    removeClientModel cid (removeClientModel cid s).1 = ((removeClientModel cid s).1, []) ∧
      (lookupClient cid s.clients = none →
        subscribeModel P (some cid) ok s = (s, []) ∧
          unsubscribeModel P (some cid) s = (s, [])) := by
  constructor
  · cases hlk : lookupClient cid s.clients with
    | none =>
        rw [removeClientModel_of_lookup_none hlk]
        exact removeClientModel_of_lookup_none hlk
    | some subs =>
        have h1 : lookupClient cid (removeClientModel cid s).1.clients = none := by
          rw [clients_after_remove hlk]
          exact lookupClient_eraseClient_self
        exact removeClientModel_of_lookup_none h1
  · intro h
    exact ⟨subscribeModel_of_lookup_none h, unsubscribeModel_of_lookup_none h⟩

/-- Claim C6, witness: removing `c1` twice from a one-client registry is the
same as removing it once, and subscribe/unsubscribe with the unknown id
`ghost` leave the state untouched. -/
theorem c6_idempotence_witness :
    removeClientModel "c1" (removeClientModel "c1"
        ⟨[("c1", ∅)], ∅, some "c1", ∅, false, false, false, false, true, []⟩).1
      = ((removeClientModel "c1"
        ⟨[("c1", ∅)], ∅, some "c1", ∅, false, false, false, false, true, []⟩).1, []) ∧
      subscribeModel {"X"} (some "ghost") true
        ⟨[("c1", ∅)], ∅, some "c1", ∅, false, false, false, false, true, []⟩
        = (⟨[("c1", ∅)], ∅, some "c1", ∅, false, false, false, false, true, []⟩, []) ∧
      unsubscribeModel {"X"} (some "ghost")
        ⟨[("c1", ∅)], ∅, some "c1", ∅, false, false, false, false, true, []⟩
        = (⟨[("c1", ∅)], ∅, some "c1", ∅, false, false, false, false, true, []⟩, []) :=
  ⟨(c6_idempotence ⟨[("c1", ∅)], ∅, some "c1", ∅, false, false, false, false, true, []⟩
      "c1" {"X"} true).1,
   ((c6_idempotence ⟨[("c1", ∅)], ∅, some "c1", ∅, false, false, false, false, true, []⟩
      "ghost" {"X"} true).2 (by decide)).1,
   ((c6_idempotence ⟨[("c1", ∅)], ∅, some "c1", ∅, false, false, false, false, true, []⟩
      "ghost" {"X"} true).2 (by decide)).2⟩

/-! ### Claim C7 -/

/-- Claim C7, counterexample to the claim as stated: a valid-JSON message
that is not an object (e.g. the array `[1, 2]`) carries no
`subscribe`/`unsubscribe` `msg_type`, so the claim requires an error reply
with the connection left open; instead `message.get` raises
`AttributeError`, the receive loop exits, and the endpoint's cleanup
removes the session and closes the connection. -/
theorem c7_non_object_closes_connection :
    (handleClientMessage "c1" ClientMsg.nonObject true
        ⟨[("c1", {"X"})], {"X"}, some "c1", ∅, true, true, true, false, true, []⟩).2.2
      = false ∧
      (handleClientMessage "c1" ClientMsg.nonObject true
        ⟨[("c1", {"X"})], {"X"}, some "c1", ∅, true, true, true, false, true, []⟩).1.clients
      = [] := by
  constructor <;> decide

/-- Claim C7, amended: for an inbound message that is invalid JSON, or is a
JSON *object* whose `msg_type` is neither `"subscribe"` nor
`"unsubscribe"`, the endpoint replies to that client only with the
corresponding `{"error": ..., "details": ...}` object, the relay state is
unchanged, and the receive loop continues (the connection stays open);
valid-JSON non-object messages instead terminate the session. -/
theorem c7_error_replies (s : RelayState) (cid : String) (mt : Option String)
    (pairs : Finset String) (ok : Bool)
    (h1 : mt ≠ some "subscribe") (h2 : mt ≠ some "unsubscribe") :
    handleClientMessage cid ClientMsg.badJson ok s
      = (s, [Event.toClient cid errInvalidJson], true) ∧
      handleClientMessage cid (ClientMsg.obj mt pairs) ok s
      = (s, [Event.toClient cid errInvalidType], true) := by
  constructor
  · rfl
  · simp [handleClientMessage, h1, h2]

/-- Claim C7, witness: a message with `msg_type = "ping"` gets the
"Invalid message type" reply and undecodable JSON gets the "Invalid JSON"
reply; both leave the state unchanged and the connection open. -/
theorem c7_error_replies_witness :
    handleClientMessage "c1" ClientMsg.badJson true
      ⟨[("c1", ∅)], ∅, some "c1", ∅, false, false, false, false, true, []⟩
      = (⟨[("c1", ∅)], ∅, some "c1", ∅, false, false, false, false, true, []⟩,
         [Event.toClient "c1" errInvalidJson], true) ∧
      handleClientMessage "c1" (ClientMsg.obj (some "ping") {"X"}) true
        ⟨[("c1", ∅)], ∅, some "c1", ∅, false, false, false, false, true, []⟩
      = (⟨[("c1", ∅)], ∅, some "c1", ∅, false, false, false, false, true, []⟩,
         [Event.toClient "c1" errInvalidType], true) :=
  c7_error_replies ⟨[("c1", ∅)], ∅, some "c1", ∅, false, false, false, false, true, []⟩
    "c1" (some "ping") {"X"} true (by decide) (by decide)

/-! ### Claim C8 -/

/-- Claim C8, counterexample to the claim as stated: client `a` subscribes
to `{X}`; client `b` connects (becoming `_current_client`) and disconnects;
the upstream then drops.  One client (`a`, holding `X`) is still
registered, so the relay reconnects (the post-state connection is live),
but no subscribe control frame is replayed: `on_open`'s
`self.subscribe(...)` resolves its client id to the stale `_current_client`
`b` and hits the absent-id guard. -/
theorem c8_no_replay_with_stale_current_client :
    (run initState
        [.addClient "a" false, .subscribe {"X"} (some "a") true,
         .addClient "b" false, .removeClient "b"]).1.clients = [("a", {"X"})] ∧
      (run initState
        [.addClient "a" false, .subscribe {"X"} (some "a") true,
         .addClient "b" false, .removeClient "b"]).1.subscribedPairs = {"X"} ∧
      (onCloseModel true (run initState
        [.addClient "a" false, .subscribe {"X"} (some "a") true,
         .addClient "b" false, .removeClient "b"]).1).1.wsConnected = true ∧
      framesOf (onCloseModel true (run initState
        [.addClient "a" false, .subscribe {"X"} (some "a") true,
         .addClient "b" false, .removeClient "b"]).1).2 = [] := by
  refine ⟨?_, ?_, ?_, ?_⟩ <;> decide

/-- Claim C8, amended: when the upstream connection closes, the relay marks
itself not-running and clears the handle; with zero registered clients it
does not reconnect (no events, upstream stays down).  With at least one
registered client it sleeps 5 seconds and reconnects, and — provided the
most recently added client (`_current_client`) is still registered and the
desired set is nonempty — replays the subscriptions on reconnect with a
subscribe control frame carrying the full desired set (and queues the
corresponding synthetic confirmation); if `_current_client` is stale, no
replay frame is sent. -/
theorem c8_reconnect_behaviour (s : RelayState) (c : String)
    (hlock : s.wsLock = true) :
    (s.clients = [] → onCloseModel true s =
      ({ s with running := false, wsHandle := false, wsConnected := false }, [])) ∧
      (s.clients ≠ [] → s.currentClient = some c → memClient c s.clients = true →
        s.subscribedPairs ≠ ∅ →
        (onCloseModel true s).2 =
          [Event.reconnectDelay 5, Event.frame "subscribe" s.subscribedPairs,
           Event.queuePut (Frame.conf "subscribe" s.subscribedPairs "subscribed")] ∧
          (onCloseModel true s).1.wsConnected = true ∧
          (onCloseModel true s).1.running = true) := by
  constructor
  · intro h
    simp [onCloseModel, h]
  · intro h1 h2 h3 h4
    refine ⟨?_, ?_, ?_⟩ <;>
      simp [onCloseModel, connectModel, onOpenModel, subscribePost, subscribeSets,
        extractedFromSubscribe, h1, h2, h3, h4, hlock, Finset.union_self]

/-- Claim C8, witness: with client `a` subscribed to `{X}` still registered
and current, an upstream drop is followed by the 5-second delay, a
reconnect, and a replayed subscribe frame carrying the full desired set
`{X}`; with no clients at all, the upstream stays down and nothing is
emitted. -/
theorem c8_reconnect_behaviour_witness :
    (onCloseModel true ⟨[("a", {"X"})], {"X"}, some "a", ∅,
        true, true, true, false, true, []⟩).2 =
      [Event.reconnectDelay 5, Event.frame "subscribe" {"X"},
       Event.queuePut (Frame.conf "subscribe" {"X"} "subscribed")] ∧
      onCloseModel true ⟨[], {"X"}, none, ∅, true, true, true, false, true, []⟩ =
        (⟨[], {"X"}, none, ∅, false, false, false, false, true, []⟩, []) :=
  ⟨((c8_reconnect_behaviour ⟨[("a", {"X"})], {"X"}, some "a", ∅,
      true, true, true, false, true, []⟩ "a" rfl).2
      (by decide) rfl (by decide) (by decide)).1,
   (c8_reconnect_behaviour ⟨[], {"X"}, none, ∅, true, true, true, false, true, []⟩
      "a" rfl).1 rfl⟩

/-! ### Claim C9 -/

/-- Claim C9, counterexample to the claim as stated: an upstream
*unsubscribe* acknowledgement (`{"msg_type": "unsubscribe"}`) is not
dropped by `on_message` (which filters only `msg_type == "subscribe"`); it
is queued and then forwarded verbatim to a connected client by the
broadcast loop. -/
theorem c9_unsubscribe_ack_forwarded_verbatim :
    deliveredTo "c1" (run
      ⟨[("c1", {"X"})], {"X"}, some "c1", ∅, true, true, true, false, true, []⟩
      [.onMessage (Frame.ack "unsubscribe"), .processOne]).2
      = [Frame.ack "unsubscribe"] := by
  decide

/-- Claim C9, amended: upstream frames with `msg_type = "subscribe"`
(subscribe acknowledgements) are dropped by `on_message` and never reach
any client; upstream unsubscribe acknowledgements (and any other frame
without an `oracle_prices` key that is not shaped like a synthetic
confirmation) are forwarded verbatim to every registered non-closed
client; and the synthetic `"subscribed"` confirmation is delivered to
exactly the registered non-closed clients whose subscription sets contain
all of the confirmed pairs — which includes the requesting client (its set
was just updated) but may include other clients with the same coverage,
not only the requester. -/
theorem c9_ack_handling (s : RelayState) (f : Frame) (cid : String)
    (subs : Finset String)
    (hne : s.clients ≠ []) (hmem : (cid, subs) ∈ s.clients)
    (hnodup : (s.clients.map Prod.fst).Nodup) :
    (f.msgType = some "subscribe" → onMessageModel f s = (s, [])) ∧
      (f.msgType = some "subscribe" → f.status.isSome →
        deliveredTo cid (broadcastMessage f s).2 =
          if cid ∉ s.closedWebsockets ∧ ∀ p ∈ f.pairs, p ∈ subs then [f] else []) ∧
      (¬(f.msgType = some "subscribe" ∧ f.status.isSome) → f.oracle = none →
        cid ∉ s.closedWebsockets →
        deliveredTo cid (broadcastMessage f s).2 = [f]) := by
  refine ⟨?_, ?_, ?_⟩
  · intro h
    simp [onMessageModel, h]
  · intro h1 h2
    simp only [broadcastMessage, if_neg hne, if_pos (And.intro h1 h2)]
    rw [deliveredTo_deliverConf_of_mem hmem hnodup]
    rfl
  · intro h ho hopen
    simp only [broadcastMessage, if_neg hne, if_neg h]
    rw [deliveredTo_deliverPrice_of_mem hmem hnodup]
    simp [clientPriceDelivery, ho, hopen]

/-- Claim C9, witness: with clients `c1` and `c2` both subscribed to `X`,
the synthetic confirmation for `{X}` queued by `c1`'s subscribe request is
delivered to `c2` as well (its subscriptions cover the confirmed pairs),
an upstream subscribe ack is dropped by `on_message`, and an upstream
unsubscribe ack is forwarded to `c2` verbatim. -/
theorem c9_ack_handling_witness :
    onMessageModel (Frame.ack "subscribe")
      ⟨[("c1", {"X"}), ("c2", {"X"})], {"X"}, some "c1", ∅,
        true, true, true, false, true, []⟩ =
      (⟨[("c1", {"X"}), ("c2", {"X"})], {"X"}, some "c1", ∅,
        true, true, true, false, true, []⟩, []) ∧
      deliveredTo "c2" (broadcastMessage (Frame.conf "subscribe" {"X"} "subscribed")
        ⟨[("c1", {"X"}), ("c2", {"X"})], {"X"}, some "c1", ∅,
          true, true, true, false, true, []⟩).2 =
        (if ("c2" : String) ∉ (∅ : Finset String) ∧
            ∀ p ∈ (Frame.conf "subscribe" {"X"} "subscribed").pairs,
              p ∈ ({"X"} : Finset String) then
          [Frame.conf "subscribe" {"X"} "subscribed"] else []) ∧
      deliveredTo "c2" (broadcastMessage (Frame.ack "unsubscribe")
        ⟨[("c1", {"X"}), ("c2", {"X"})], {"X"}, some "c1", ∅,
          true, true, true, false, true, []⟩).2 = [Frame.ack "unsubscribe"] :=
  ⟨((c9_ack_handling
      ⟨[("c1", {"X"}), ("c2", {"X"})], {"X"}, some "c1", ∅,
        true, true, true, false, true, []⟩
      (Frame.ack "subscribe") "c2" {"X"} (by decide) (by decide) (by decide)).1 rfl),
   ((c9_ack_handling
      ⟨[("c1", {"X"}), ("c2", {"X"})], {"X"}, some "c1", ∅,
        true, true, true, false, true, []⟩
      (Frame.conf "subscribe" {"X"} "subscribed") "c2" {"X"}
      (by decide) (by decide) (by decide)).2.1 rfl rfl),
   ((c9_ack_handling
      ⟨[("c1", {"X"}), ("c2", {"X"})], {"X"}, some "c1", ∅,
        true, true, true, false, true, []⟩
      (Frame.ack "unsubscribe") "c2" {"X"}
      (by decide) (by decide) (by decide)).2.2 (by decide) rfl (by decide))⟩

/-! ### Claim C10 -/

theorem subscribePost_stopEvent (P : Finset String) (s : RelayState) :
    (subscribePost P s).1.stopEvent = s.stopEvent := by
  unfold subscribePost; split <;> rfl

theorem onOpen_stopEvent (s : RelayState) :
    (onOpenModel s).1.stopEvent = s.stopEvent := by
  unfold onOpenModel
  split
  · rfl
  · split
    · rfl
    · split
      · rw [subscribePost_stopEvent]
        rfl
      · rfl

theorem connect_stopEvent (ok : Bool) (s : RelayState) :
    (connectModel ok s).1.stopEvent = s.stopEvent := by
  simp only [connectModel]
  split
  · rfl
  · split
    · rw [onOpen_stopEvent]
    · rfl

theorem subscribe_stopEvent (P : Finset String) (cido : Option String) (ok : Bool)
    (s : RelayState) : (subscribeModel P cido ok s).1.stopEvent = s.stopEvent := by
  simp only [subscribeModel]
  split
  · rfl
  · split
    · rw [subscribePost_stopEvent]
      split
      · rw [connect_stopEvent]
        rfl
      · rfl
    · rfl

theorem unsubscribe_stopEvent (P : Finset String) (cido : Option String)
    (s : RelayState) : (unsubscribeModel P cido s).1.stopEvent = s.stopEvent := by
  simp only [unsubscribeModel]
  split
  · rfl
  · split
    · split
      · split <;> rfl
      · split <;> rfl
    · rfl

theorem remove_stopEvent {cid : String} {s : RelayState} (h : s.stopEvent = true) :
    (removeClientModel cid s).1.stopEvent = true := by
  simp only [removeClientModel]
  split
  · exact h
  · split
    · split
      · rfl
      · rw [unsubscribe_stopEvent]
        exact h
    · split
      · rfl
      · exact h

theorem add_stopEvent (cid : String) (ok : Bool) (s : RelayState) :
    (addClientModel cid ok s).1.stopEvent = s.stopEvent := by
  simp only [addClientModel]
  split
  · rw [connect_stopEvent]
  · rfl

theorem onClose_stopEvent (ok : Bool) (s : RelayState) :
    (onCloseModel ok s).1.stopEvent = s.stopEvent := by
  simp only [onCloseModel]
  split
  · rw [connect_stopEvent]
  · rfl

theorem onMessage_stopEvent (f : Frame) (s : RelayState) :
    (onMessageModel f s).1.stopEvent = s.stopEvent := by
  simp only [onMessageModel]
  split <;> rfl

theorem clientSends_append {a b : List Event} :
    clientSends (a ++ b) = clientSends a ++ clientSends b := by
  simp [clientSends, List.filterMap_append]

theorem clientSends_extracted (t : String) (s : RelayState) :
    clientSends (extractedFromSubscribe t s) = [] := by
  unfold extractedFromSubscribe; split <;> rfl

theorem clientSends_subscribePost (P : Finset String) (s : RelayState) :
    clientSends (subscribePost P s).2 = [] := by
  unfold subscribePost
  split
  · rw [clientSends_append, clientSends_extracted]
    rfl
  · rfl

theorem clientSends_onOpen (s : RelayState) :
    clientSends (onOpenModel s).2 = [] := by
  unfold onOpenModel
  split
  · rfl
  · split
    · rfl
    · split
      · exact clientSends_subscribePost _ _
      · rfl

theorem clientSends_connect (ok : Bool) (s : RelayState) :
    clientSends (connectModel ok s).2 = [] := by
  simp only [connectModel]
  split
  · rfl
  · split
    · rw [clientSends_append, clientSends_onOpen, List.append_nil]
      split <;> rfl
    · rw [clientSends_append]
      split <;> rfl

theorem clientSends_subscribe (P : Finset String) (cido : Option String) (ok : Bool)
    (s : RelayState) : clientSends (subscribeModel P cido ok s).2 = [] := by
  simp only [subscribeModel]
  split
  · rfl
  · split
    · rw [clientSends_append, clientSends_subscribePost, List.append_nil]
      split
      · exact clientSends_connect _ _
      · rfl
    · rfl

theorem clientSends_unsubscribe (P : Finset String) (cido : Option String)
    (s : RelayState) : clientSends (unsubscribeModel P cido s).2 = [] := by
  simp only [unsubscribeModel]
  split
  · rfl
  · split
    · split
      · split
        · simp only [clientSends_append, clientSends_extracted]
          rfl
        · exact clientSends_extracted _ _
      · split <;> rfl
    · rfl

theorem clientSends_remove (cid : String) (s : RelayState) :
    clientSends (removeClientModel cid s).2 = [] := by
  simp only [removeClientModel]
  split
  · rfl
  · rename_i subs heq
    have h := clientSends_unsubscribe subs (some cid)
      { s with clients := eraseClient cid s.clients,
               closedWebsockets := insert cid s.closedWebsockets }
    simp only [clientSends] at h
    split
    · split
      · simp only [List.cons_append, clientSends, List.filterMap_cons,
          List.filterMap_append]
        rw [h]
        rfl
      · simp only [clientSends, List.filterMap_cons]
        exact h
    · split <;> rfl

theorem clientSends_add (cid : String) (ok : Bool) (s : RelayState) :
    clientSends (addClientModel cid ok s).2 = [] := by
  simp only [addClientModel]
  split
  · exact clientSends_connect _ _
  · rfl

theorem clientSends_onClose (ok : Bool) (s : RelayState) :
    clientSends (onCloseModel ok s).2 = [] := by
  simp only [onCloseModel]
  split
  · have h := clientSends_connect ok
      { s with running := false, wsHandle := false, wsConnected := false }
    simp only [clientSends] at h
    simp only [clientSends, List.filterMap_cons]
    exact h
  · rfl

theorem clientSends_onMessage (f : Frame) (s : RelayState) :
    clientSends (onMessageModel f s).2 = [] := by
  simp only [onMessageModel]
  split <;> rfl

theorem c10_step {s : RelayState} {op : Op} (h : s.stopEvent = true) :
    (step s op).1.stopEvent = true ∧ clientSends (step s op).2 = [] := by
  cases op with
  | addClient cid ok => exact ⟨(add_stopEvent cid ok s).trans h, clientSends_add cid ok s⟩
  | removeClient cid => exact ⟨remove_stopEvent h, clientSends_remove cid s⟩
  | subscribe pairs cido ok =>
      exact ⟨(subscribe_stopEvent pairs cido ok s).trans h, clientSends_subscribe pairs cido ok s⟩
  | unsubscribe pairs cido =>
      exact ⟨(unsubscribe_stopEvent pairs cido s).trans h, clientSends_unsubscribe pairs cido s⟩
  | connect ok => exact ⟨(connect_stopEvent ok s).trans h, clientSends_connect ok s⟩
  | onOpen => exact ⟨(onOpen_stopEvent s).trans h, clientSends_onOpen s⟩
  | onClose ok => exact ⟨(onClose_stopEvent ok s).trans h, clientSends_onClose ok s⟩
  | onMessage f => exact ⟨(onMessage_stopEvent f s).trans h, clientSends_onMessage f s⟩
  | processOne =>
      constructor
      · simp [step, processOneModel, h]
      · simp [step, processOneModel, h, clientSends]

/-- Claim C10: removing the last registered client while an upstream handle
exists sets `stop_event`; once `stop_event` is set, no sequence of relay
operations ever clears it, and no operation — in particular no broadcast
iteration, however many messages are queued afterwards — ever delivers
anything to any client again. -/
theorem c10_stop_event_permanent :
    (∀ (s : RelayState) (cid : String) (subs : Finset String),
        lookupClient cid s.clients = some subs →
        eraseClient cid s.clients = [] →
        s.wsHandle = true →
        (removeClientModel cid s).1.stopEvent = true) ∧
      (∀ (s : RelayState) (ops : List Op), s.stopEvent = true →
        (run s ops).1.stopEvent = true ∧ clientSends (run s ops).2 = []) := by
  constructor
  · intro s cid subs hlk herase hws
    have hnm : lookupClient cid
        ({ s with clients := eraseClient cid s.clients,
                  closedWebsockets := insert cid s.closedWebsockets } : RelayState).clients
        = none := lookupClient_eraseClient_self
    simp only [removeClientModel, hlk]
    rw [unsubscribeModel_of_lookup_none hnm, ite_self]
    rw [if_pos (And.intro herase hws)]
  · intro s ops h
    induction ops generalizing s with
    | nil => exact ⟨h, rfl⟩
    | cons op rest ih =>
        have h1 := @c10_step s op h
        have h2 := ih (step s op).1 h1.1
        refine ⟨h2.1, ?_⟩
        simp only [run, clientSends_append, h1.2, h2.2, List.append_nil,
          List.nil_append]

/-- Claim C10, witness: after the sole client `c1` (subscribed to `X`) is
removed, `stop_event` is set; a price update then arrives, a new client
`c2` connects and subscribes, and two broadcast iterations run — yet
`stop_event` stays set and nothing is ever delivered to any client. -/
theorem c10_stop_event_permanent_witness :
    (removeClientModel "c1" (run initState
        [.addClient "c1" false, .subscribe {"X"} (some "c1") true]).1).1.stopEvent
      = true ∧
      (run (run initState
          [.addClient "c1" false, .subscribe {"X"} (some "c1") true,
           .removeClient "c1"]).1
        [.onMessage (Frame.price [⟨"X", 5⟩] (some 1)), .addClient "c2" true,
         .subscribe {"X"} (some "c2") true, .processOne,
         .processOne]).1.stopEvent = true ∧
      clientSends (run (run initState
          [.addClient "c1" false, .subscribe {"X"} (some "c1") true,
           .removeClient "c1"]).1
        [.onMessage (Frame.price [⟨"X", 5⟩] (some 1)), .addClient "c2" true,
         .subscribe {"X"} (some "c2") true, .processOne, .processOne]).2 = [] :=
  ⟨c10_stop_event_permanent.1
      (run initState [.addClient "c1" false, .subscribe {"X"} (some "c1") true]).1
      "c1" {"X"} (by decide) (by decide) (by decide),
   (c10_stop_event_permanent.2
      (run initState [.addClient "c1" false, .subscribe {"X"} (some "c1") true,
        .removeClient "c1"]).1
      [.onMessage (Frame.price [⟨"X", 5⟩] (some 1)), .addClient "c2" true,
       .subscribe {"X"} (some "c2") true, .processOne, .processOne]
      (by decide)).1,
   (c10_stop_event_permanent.2
      (run initState [.addClient "c1" false, .subscribe {"X"} (some "c1") true,
        .removeClient "c1"]).1
      [.onMessage (Frame.price [⟨"X", 5⟩] (some 1)), .addClient "c2" true,
       .subscribe {"X"} (some "c2") true, .processOne, .processOne]
      (by decide)).2⟩

end Relay
